import Mathlib

/-!
Verification development for the HyperTabs browser extension.

Shallow embedding of the two core components:
* the harpoon slot registry (harpoon module: markToSlot, removeFromSlot,
  removeByUrl, clearAll, jumpToSlot, swapSlots, moveSlot, syncWithTabs)
  together with the tabs wrapper (getTabById, findTabByUrl) and the
  storage defaults (DEFAULT_HARPOON_STATE);
* the leader-key sequence matcher (src/lib/keybinds.ts: KeybindManager
  with getKeyName, findMatch, sequencesMatch, isPartialMatch,
  handleKeyDown, and DEFAULT_KEYBINDS).

Asynchronous storage reads/writes are modelled by explicit state passing:
each operation is a pure function from the stored HarpoonState (plus the
ambient set of live browser tabs) to the new stored HarpoonState, which is
exactly the read-modify-write pattern the code uses via update('harpoon', f).
-/

/- ## JavaScript array observable semantics

The registry code manipulates a JS array of `HarpoonSlot | null`.
We model the array as `List (Option HarpoonSlot)` and reproduce the
observable element semantics of JS arrays:
* reading out of bounds yields `undefined`; every read site in the code
  immediately coalesces it (`?? null`, truthiness test), so `undefined`
  and `null` are both modelled as `none`;
* writing at a negative index creates a non-element property, invisible
  to all element reads and dropped by the next `[...arr]` copy; modelled
  as a no-op on the list;
* writing at an index past the end extends the array, with the skipped
  positions becoming holes that read back as `undefined`; modelled by
  padding with `none`. -/

/-- JS array element read `arr[i]`, with `undefined`/`null` collapsed to `none`. -/
def jsGet {α : Type} (l : List (Option α)) (i : Int) : Option α :=
  if 0 ≤ i then (l[i.toNat]?).getD none else none

/-- JS array element write `arr[i] = v` (no-op at negative indices,
extends with holes past the end). -/
def jsSet {α : Type} (l : List (Option α)) (i : Int) (v : Option α) : List (Option α) :=
  if 0 ≤ i then (l ++ List.replicate (i.toNat + 1 - l.length) none).set i.toNat v else l

/-- Start-index normalization used by `Array.prototype.splice`:
negative indices count from the end, clamped to `[0, len]`. -/
def spliceStart (len : Nat) (i : Int) : Nat :=
  if i < 0 then ((len : Int) + i).toNat else min i.toNat len

/-- JS string coalescing `s || d` (used for `tab.title || 'Untitled'`):
`undefined` and the empty string are falsy. -/
def jsOrString (s : Option String) (d : String) : String :=
  match s with
  | some v => if v = "" then d else v
  | none => d

/-- JS `String.prototype.startsWith(p)` (used for the internal-scheme
check): the prefix test on the character sequences, written on `List
Char` so that it evaluates by kernel reduction. -/
def strStartsWith (s p : String) : Bool := p.data.isPrefixOf s.data

/-- JS `String.prototype.toLowerCase()` on the ASCII tokens the matcher
handles, written on `List Char` so that it evaluates by kernel
reduction. -/
def strToLower (s : String) : String := String.mk (s.data.map Char.toLower)

/-- JS regex test `/[a-zA-Z0-9]/.test(key)` on a single-character key:
every (equivalently, some) character is ASCII alphanumeric; written on
`List Char` so that it evaluates by kernel reduction. -/
def strAll (s : String) (p : Char → Bool) : Bool := s.data.all p

/- ## Data model

`chrome.tabs.Tab` (the fields the core reads).  Chrome tab ids are
positive and tab URLs are nonempty, so the code's JS truthiness checks
on `tab.id` / `tab.url` / `slot.tabId` are presence checks; optional
fields are modelled as `Option` and truthiness as `isSome`. -/

structure Tab where
  id : Option Nat
  url : Option String
  title : Option String
  favIconUrl : Option String
  windowId : Nat
deriving Repr, DecidableEq

/-- A harpoon slot record (HarpoonSlot in types): 1-indexed slot id,
last known tab id, durable URL, cached title/favicon, window id. -/
structure HarpoonSlot where
  id : Nat
  tabId : Option Nat
  url : String
  title : String
  favicon : Option String
  windowId : Nat
deriving Repr, DecidableEq

/-- HarpoonState: the slots array (`HarpoonSlot | null` per position)
plus the configured maximum number of slots. -/
structure HarpoonState where
  slots : List (Option HarpoonSlot)
  maxSlots : Nat
deriving Repr, DecidableEq

/-- DEFAULT_HARPOON_STATE from storage: five empty slots. -/
def DEFAULT_HARPOON_STATE : HarpoonState :=
  { slots := [none, none, none, none, none], maxSlots := 5 }

/- ## Tabs wrapper (tabs module)

The set of live browser tabs is passed explicitly as `tabs : List Tab`. -/

/-- getTabById: `chrome.tabs.get(tabId)` with the try/catch collapsed to
`Option` — `none` when no live tab has this id. -/
def getTabById (tabs : List Tab) (tabId : Nat) : Option Tab :=
  tabs.find? (fun t => t.id == some tabId)

/-- findTabByUrl: `chrome.tabs.query({ url })` and take the first match. -/
def findTabByUrl (tabs : List Tab) (url : String) : Option Tab :=
  tabs.find? (fun t => t.url == some url)

/- ## Registry operations (harpoon module) -/

/-- markToSlot: validates the resolved tab (must exist, have an id and a
URL, and not be a `chrome://` or `chrome-extension://` page), then writes
a fresh record at the 1-indexed slot, padding the array with `null` if it
is shorter than `slotId`.  Returns the created slot (`none` on failure,
in which case the stored state is untouched — the failure returns happen
before the storage update). -/
def markToSlot (tab : Option Tab) (slotId : Nat) (st : HarpoonState) :
    Option HarpoonSlot × HarpoonState :=
  match tab with
  | none => (none, st)
  | some t =>
    match t.id, t.url with
    | some tid, some url =>
      if strStartsWith url "chrome://" || strStartsWith url "chrome-extension://" then
        (none, st)
      else
        let slot : HarpoonSlot :=
          { id := slotId
            tabId := some tid
            url := url
            title := jsOrString t.title "Untitled"
            favicon := t.favIconUrl
            windowId := t.windowId }
        let padded := st.slots ++ List.replicate (slotId - st.slots.length) none
        (some slot, { st with slots := jsSet padded ((slotId : Int) - 1) (some slot) })
    | _, _ => (none, st)

/-- removeFromSlot: clears the 1-indexed slot to `null`, guarded by
`slotId > 0 && slotId <= newSlots.length` (silent no-op otherwise). -/
def removeFromSlot (slotId : Nat) (st : HarpoonState) : HarpoonState :=
  if 0 < slotId ∧ slotId ≤ st.slots.length then
    { st with slots := jsSet st.slots ((slotId : Int) - 1) none }
  else
    { st with slots := st.slots }

/-- removeByUrl: clears every slot whose stored URL equals the given URL. -/
def removeByUrl (url : String) (st : HarpoonState) : HarpoonState :=
  { st with
    slots := st.slots.map (fun slot =>
      match slot with
      | some s => if s.url = url then none else some s
      | none => none) }

/-- clearAll: resets to `maxSlots` empty slots. -/
def clearAll (st : HarpoonState) : HarpoonState :=
  { st with slots := List.replicate st.maxSlots none }

/-- Effect on the browser performed by a jump, beyond the registry state:
either no tab action, activating an existing tab (switchToTab with the
given id/window), or creating a fresh tab at a URL. -/
inductive JumpEffect where
  | noAction
  | activated (tabId : Option Nat) (windowId : Nat)
  | created (url : String)
deriving Repr, DecidableEq

/-- The self-healing storage update both URL-recovery and reopen perform:
re-read the slot and overwrite its `tabId`/`windowId` if still occupied. -/
def healSlot (st : HarpoonState) (slotId : Nat) (newId : Option Nat) (newWin : Nat) :
    HarpoonState :=
  match jsGet st.slots ((slotId : Int) - 1) with
  | some existingSlot =>
    { st with
      slots := jsSet st.slots ((slotId : Int) - 1)
        (some { existingSlot with tabId := newId, windowId := newWin }) }
  | none => st

/-- Last resort of jumpToSlot: if `settings.harpoonReopenClosed` is on,
create a tab at the stored URL (the created tab is supplied by the
environment as `newTabFor url`) and store its id; otherwise fail with no
action taken. -/
def jumpReopenStep (reopen : Bool) (newTabFor : String → Tab) (slotId : Nat)
    (slot : HarpoonSlot) (st : HarpoonState) : Bool × HarpoonState × JumpEffect :=
  if reopen then
    let newTab := newTabFor slot.url
    let st' :=
      match newTab.id with
      | some _ => healSlot st slotId newTab.id newTab.windowId
      | none => st
    (true, st', JumpEffect.created slot.url)
  else
    (false, st, JumpEffect.noAction)

/-- Fallback of jumpToSlot after the stored tab id failed to resolve:
find a live tab by the stored URL, self-heal the record and activate it;
otherwise fall through to the reopen step. -/
def jumpAfterIdProbe (tabs : List Tab) (reopen : Bool) (newTabFor : String → Tab)
    (slotId : Nat) (slot : HarpoonSlot) (st : HarpoonState) :
    Bool × HarpoonState × JumpEffect :=
  match findTabByUrl tabs slot.url with
  | some tabByUrl =>
    match tabByUrl.id with
    | some nid =>
      (true, healSlot st slotId (some nid) tabByUrl.windowId,
        JumpEffect.activated (some nid) tabByUrl.windowId)
    | none => jumpReopenStep reopen newTabFor slotId slot st
  | none => jumpReopenStep reopen newTabFor slotId slot st

/-- jumpToSlot: empty slot fails; a live stored tab id activates that tab;
otherwise search by URL (self-healing); otherwise reopen if enabled.
Result: (returned Bool, stored state afterwards, browser effect). -/
def jumpToSlot (tabs : List Tab) (reopen : Bool) (newTabFor : String → Tab)
    (slotId : Nat) (st : HarpoonState) : Bool × HarpoonState × JumpEffect :=
  match jsGet st.slots ((slotId : Int) - 1) with
  | none => (false, st, JumpEffect.noAction)
  | some slot =>
    match slot.tabId with
    | some tid =>
      match getTabById tabs tid with
      | some tab => (true, st, JumpEffect.activated tab.id tab.windowId)
      | none => jumpAfterIdProbe tabs reopen newTabFor slotId slot st
    | none => jumpAfterIdProbe tabs reopen newTabFor slotId slot st

/-- The slot-id fixup pass of swapSlots at one position
(`if (newSlots[i]) { newSlots[i] = { ...newSlots[i]!, id: k } }`). -/
def updateIdAt (l : List (Option HarpoonSlot)) (i : Int) (k : Nat) :
    List (Option HarpoonSlot) :=
  match jsGet l i with
  | some s => jsSet l i (some { s with id := k })
  | none => l

/-- swapSlots: copy the array, swap the two positions (with `?? null`
fallbacks), then rewrite the `id` field of both positions. -/
def swapSlots (slotA slotB : Nat) (st : HarpoonState) : HarpoonState :=
  let indexA : Int := (slotA : Int) - 1
  let indexB : Int := (slotB : Int) - 1
  let temp := jsGet st.slots indexA
  let ns1 := jsSet st.slots indexA (jsGet st.slots indexB)
  let ns2 := jsSet ns1 indexB temp
  let ns3 := updateIdAt ns2 indexA slotA
  let ns4 := updateIdAt ns3 indexB slotB
  { st with slots := ns4 }

/-- Index-aware renumbering pass of moveSlot
(`newSlots.map((slot, index) => slot ? { ...slot, id: index + 1 } : null)`),
written as a recursion carrying the index offset. -/
def renumberFrom (k : Nat) : List (Option HarpoonSlot) → List (Option HarpoonSlot)
  | [] => []
  | slot :: rest =>
    (match slot with
     | some s => some { s with id := k + 1 }
     | none => none) :: renumberFrom (k + 1) rest

/-- moveSlot: no-op when source equals destination; otherwise
`splice(fromIndex, 1)` (with `?? null` on the removed element),
`splice(toIndex, 0, movedSlot)`, then renumber every slot id. -/
def moveSlot (fromSlot toSlot : Nat) (st : HarpoonState) : HarpoonState :=
  if fromSlot = toSlot then st
  else
    let s1 := spliceStart st.slots.length ((fromSlot : Int) - 1)
    let moved := (st.slots[s1]?).getD none
    let removed := st.slots.take s1 ++ st.slots.drop (s1 + 1)
    let s2 := spliceStart removed.length ((toSlot : Int) - 1)
    let inserted := removed.take s2 ++ moved :: removed.drop s2
    { st with slots := renumberFrom 0 inserted }

/-- Per-slot body of the syncWithTabs loop: a slot whose stored tab id no
longer resolves gets its `tabId`/`windowId` repaired from a live tab with
the same URL; otherwise it is left untouched (stale ids are kept). -/
def syncSlot (tabs : List Tab) (slot : Option HarpoonSlot) : Option HarpoonSlot :=
  match slot with
  | none => none
  | some s =>
    match s.tabId with
    | none => some s
    | some tid =>
      match getTabById tabs tid with
      | some _ => some s
      | none =>
        match findTabByUrl tabs s.url with
        | some tabByUrl =>
          match tabByUrl.id with
          | some nid => some { s with tabId := some nid, windowId := tabByUrl.windowId }
          | none => some s
        | none => some s

/-- syncWithTabs: repair every slot in place (the loop reads each
position once and writes only that position, i.e. a positional map;
the `needsUpdate` flag only skips the storage write when nothing
changed, which leaves the stored state identical either way). -/
def syncWithTabs (tabs : List Tab) (st : HarpoonState) : HarpoonState :=
  { st with slots := st.slots.map (syncSlot tabs) }

/- ## Error vocabulary of the spec (section 7) -/

/-- Modelled from the spec: the error kinds named in the specification
(`InvalidTarget`, `EmptySlot`, `TargetUnavailable`, `InvalidSlotIndex`).
The source registry code has no such error channel; this type exists to
state the spec side of refinement claims about failure semantics. -/
inductive RegistryError where
  | invalidTarget
  | emptySlot
  | targetUnavailable
  | invalidSlotIndex
deriving Repr, DecidableEq

/-- Modelled from the spec: `remove(slotIndex)` as the spec words it —
out-of-range indices (outside 1..maxSlots) fail with `InvalidSlotIndex`,
in-range indices clear the record to empty. -/
def removeFromSlotSpec (slotId : Nat) (st : HarpoonState) :
    Except RegistryError HarpoonState :=
  if 1 ≤ slotId ∧ slotId ≤ st.maxSlots then
    Except.ok { st with slots := jsSet st.slots ((slotId : Int) - 1) none }
  else
    Except.error RegistryError.invalidSlotIndex

/- ## Keybind system (src/lib/keybinds.ts) -/

/-- The KeybindAction vocabulary. -/
inductive KeybindAction where
  | openHyperTabs
  | harpoonAdd
  | harpoonRemove
  | harpoonList
  | harpoon1
  | harpoon2
  | harpoon3
  | harpoon4
  | harpoon5
  | workspaceNext
  | workspacePrev
  | workspaceList
  | lastTab
  | closeTab
deriving Repr, DecidableEq

/-- A keybind sequence definition. -/
structure KeybindDef where
  sequence : List String
  description : String
  action : KeybindAction
deriving Repr, DecidableEq

/-- DEFAULT_KEYBINDS, verbatim from the source. -/
def DEFAULT_KEYBINDS : List KeybindDef :=
  [ { sequence := ["Space", "Space"], description := "Open HyperTabs",
      action := KeybindAction.openHyperTabs },
    { sequence := ["Space", "h", "a"], description := "Add tab to Harpoon",
      action := KeybindAction.harpoonAdd },
    { sequence := ["Space", "h", "r"], description := "Remove tab from Harpoon",
      action := KeybindAction.harpoonRemove },
    { sequence := ["Space", "h", "o"], description := "Open Harpoon list",
      action := KeybindAction.harpoonList },
    { sequence := ["Space", "1"], description := "Jump to Harpoon slot 1",
      action := KeybindAction.harpoon1 },
    { sequence := ["Space", "2"], description := "Jump to Harpoon slot 2",
      action := KeybindAction.harpoon2 },
    { sequence := ["Space", "3"], description := "Jump to Harpoon slot 3",
      action := KeybindAction.harpoon3 },
    { sequence := ["Space", "4"], description := "Jump to Harpoon slot 4",
      action := KeybindAction.harpoon4 },
    { sequence := ["Space", "5"], description := "Jump to Harpoon slot 5",
      action := KeybindAction.harpoon5 },
    { sequence := ["Space", "w", "n"], description := "Next workspace",
      action := KeybindAction.workspaceNext },
    { sequence := ["Space", "w", "p"], description := "Previous workspace",
      action := KeybindAction.workspacePrev },
    { sequence := ["Space", "w", "o"], description := "Open workspace list",
      action := KeybindAction.workspaceList },
    { sequence := ["Space", "l"], description := "Switch to last tab",
      action := KeybindAction.lastTab },
    { sequence := ["Space", "x"], description := "Close current tab",
      action := KeybindAction.closeTab } ]

/-- The slice of a DOM KeyboardEvent the manager reads: `code`, `key`,
and whether the event target is a text-input-like element
(`isInputElement(target)`, a DOM query modelled as an event attribute). -/
structure KeyEvent where
  code : String
  key : String
  targetIsInput : Bool
deriving Repr, DecidableEq

/-- KeybindManager mutable state: the in-progress sequence buffer and
whether a reset timeout is currently pending (`sequenceTimeout != null`),
plus the `enabled` flag.  The keybind table is passed explicitly. -/
structure MatcherState where
  currentSequence : List String
  timeoutArmed : Bool
  enabled : Bool
deriving Repr, DecidableEq

/-- getKeyName: `Space` by code, `Escape` by key, single alphanumeric
characters lowercased; anything else does not normalize (`null`). -/
def getKeyName (event : KeyEvent) : Option String :=
  if event.code == "Space" then some "Space"
  else if event.key == "Escape" then some "Escape"
  else if event.key.length == 1 && strAll event.key Char.isAlphanum then
    some (strToLower event.key)
  else none

/-- sequencesMatch: same length and case-insensitively equal tokens. -/
def sequencesMatch (a b : List String) : Bool :=
  a.length == b.length &&
    (List.zip a b).all (fun p => strToLower p.1 == strToLower p.2)

/-- isPartialMatch: `current` is a strict prefix of `keybind`,
case-insensitively. -/
def isPartialMatch (keybind current : List String) : Bool :=
  current.length < keybind.length &&
    (List.zip current keybind).all (fun p => strToLower p.1 == strToLower p.2)

/-- Classification of the in-progress buffer
('exact' | 'partial' | 'none' in the source). -/
inductive MatchResult where
  | exact
  | Partial
  | none
deriving Repr, DecidableEq

/-- findMatch: the source loops over the table, returning 'exact' as soon
as some binding matches exactly and otherwise remembering whether any
binding extends the buffer (`hasPartial`). -/
def findMatch (keybinds : List KeybindDef) (current : List String) : MatchResult :=
  if keybinds.any (fun kb => sequencesMatch kb.sequence current) then
    MatchResult.exact
  else if keybinds.any (fun kb => isPartialMatch kb.sequence current) then
    MatchResult.Partial
  else
    MatchResult.none

/-- Body of handleKeyDown after key normalization: leader gate, append to
the buffer, classify, and either emit (exact), keep building (partial) or
reset without consuming (none).  Result: (consumed, new state, emitted
actions via the onAction callback). -/
def handleToken (keybinds : List KeybindDef) (st : MatcherState) (key : String) :
    Bool × MatcherState × List KeybindAction :=
  if st.currentSequence.length == 0 && key != "Space" then
    (false, st, [])
  else
    let seq' := st.currentSequence ++ [key]
    let armed : MatcherState :=
      { st with currentSequence := seq', timeoutArmed := true }
    match findMatch keybinds seq' with
    | MatchResult.exact =>
      match keybinds.find? (fun kb => sequencesMatch kb.sequence seq') with
      | some keybind =>
        (true, { armed with currentSequence := [], timeoutArmed := false },
          [keybind.action])
      | none => (false, armed, [])
    | MatchResult.Partial => (true, armed, [])
    | MatchResult.none =>
      (false, { armed with currentSequence := [], timeoutArmed := false }, [])

/-- handleKeyDown: disabled managers and text-input targets ignore the
event; keys that do not normalize are ignored; otherwise `handleToken`. -/
def handleKeyDown (keybinds : List KeybindDef) (st : MatcherState) (event : KeyEvent) :
    Bool × MatcherState × List KeybindAction :=
  if !st.enabled then (false, st, [])
  else if event.targetIsInput then (false, st, [])
  else
    match getKeyName event with
    | none => (false, st, [])
    | some key => handleToken keybinds st key

/-- Feeding a stream of already-normalized tokens through the matcher,
recording for each token whether it was consumed and which actions were
emitted. -/
def feed (keybinds : List KeybindDef) (st : MatcherState) :
    List String → MatcherState × List (Bool × List KeybindAction)
  | [] => (st, [])
  | t :: rest =>
    let r := handleToken keybinds st t
    let rest' := feed keybinds r.2.1 rest
    (rest'.1, (r.1, r.2.2) :: rest'.2)

/- ## Registry operation sequences (for the slot-id invariant) -/

/-- One registry mutation, with its externally-resolved inputs
(the tab to mark, the set of live tabs to sync against). -/
inductive RegOp where
  | mark (slotId : Nat) (tab : Option Tab)
  | remove (slotId : Nat)
  | removeUrl (url : String)
  | swap (a b : Nat)
  | move (f t : Nat)
  | clear
  | sync (tabs : List Tab)

/-- Apply one registry operation to the stored state. -/
def applyOp : RegOp → HarpoonState → HarpoonState
  | RegOp.mark slotId tab, st => (markToSlot tab slotId st).2
  | RegOp.remove slotId, st => removeFromSlot slotId st
  | RegOp.removeUrl url, st => removeByUrl url st
  | RegOp.swap a b, st => swapSlots a b st
  | RegOp.move f t, st => moveSlot f t st
  | RegOp.clear, st => clearAll st
  | RegOp.sync tabs, st => syncWithTabs tabs st

/-- Apply a sequence of registry operations starting from the initial
all-empty registry. -/
def applySeq (ops : List RegOp) : HarpoonState :=
  ops.foldl (fun st op => applyOp op st) DEFAULT_HARPOON_STATE

/-- The registry invariant: every occupied position stores a record whose
`id` field is the position plus 1 (positions are read with JS element
semantics, so positions past the end count as empty). -/
def slotsInvariant (st : HarpoonState) : Prop :=
  ∀ (j : Nat) (s : HarpoonSlot), jsGet st.slots (j : Int) = some s → s.id = j + 1

/-- Rewriting the `id` field of an occupied slot value (what the fixup
pass of `swapSlots` does to one position, as a value transformer). -/
def reId (k : Nat) : Option HarpoonSlot → Option HarpoonSlot
  | some s => some { s with id := k }
  | none => none

/-! ## Concrete sample data used by closed instance checks -/

/-- An ordinary live tab. -/
def sampleTab : Tab :=
  { id := some 7, url := some "https://a.test", title := some "A",
    favIconUrl := none, windowId := 1 }

/-- A browser-internal page, which markToSlot must refuse. -/
def sampleInternalTab : Tab :=
  { id := some 9, url := some "chrome://settings", title := some "Settings",
    favIconUrl := none, windowId := 1 }

/-- The registry after marking the sample tab into slot 1. -/
def sampleState : HarpoonState := (markToSlot (some sampleTab) 1 DEFAULT_HARPOON_STATE).2

/-- The record sampleState stores in slot 1. -/
def sampleSlot : HarpoonSlot :=
  { id := 1, tabId := some 7, url := "https://a.test", title := "A",
    favicon := none, windowId := 1 }

/-- A tab carrying no id, which markToSlot must refuse. -/
def sampleIdlessTab : Tab :=
  { id := none, url := some "https://x.test", title := none,
    favIconUrl := none, windowId := 1 }

/-- An environment that answers createTab with a fresh tab id 99. -/
def sampleNewTab : String → Tab := fun u =>
  { id := some 99, url := some u, title := none, favIconUrl := none, windowId := 2 }

/-- A prefix-free one-binding table whose sequence does not start with
the leader token. -/
def leaderlessTable : List KeybindDef :=
  [ { sequence := ["a"], description := "no leader", action := KeybindAction.harpoonAdd } ]

/-- A matcher at rest: empty buffer, no pending timeout, enabled. -/
def idleMatcher : MatcherState :=
  { currentSequence := [], timeoutArmed := false, enabled := true }

/-! ## Lemmas about the JS array model -/

theorem jsGet_neg {α : Type} (l : List (Option α)) (i : Int) (h : i < 0) :
    jsGet l i = none := by
  simp [jsGet, not_le.mpr h]

theorem jsGet_natCast {α : Type} (l : List (Option α)) (j : Nat) :
    jsGet l (j : Int) = (l[j]?).getD none := by
  simp [jsGet]

theorem jsGet_eq_getElem {α : Type} (l : List (Option α)) (j : Nat) (h : j < l.length) :
    jsGet l (j : Int) = l[j] := by
  rw [jsGet_natCast, List.getElem?_eq_getElem h, Option.getD_some]

theorem getElem?_eq_some_jsGet {α : Type} (l : List (Option α)) (j : Nat)
    (h : j < l.length) : l[j]? = some (jsGet l (j : Int)) := by
  rw [jsGet_eq_getElem l j h, List.getElem?_eq_getElem h]

theorem jsGet_eq_some_iff {α : Type} (l : List (Option α)) (j : Nat) (s : α) :
    jsGet l (j : Int) = some s ↔ l[j]? = some (some s) := by
  rw [jsGet_natCast]
  cases h : l[j]? with
  | none => simp
  | some x => simp

theorem length_jsSet {α : Type} (l : List (Option α)) (i : Int) (v : Option α) :
    (jsSet l i v).length = if 0 ≤ i then max l.length (i.toNat + 1) else l.length := by
  unfold jsSet
  split
  · simp [List.length_set, List.length_append, List.length_replicate]
    omega
  · rfl

theorem jsGet_jsSet {α : Type} (l : List (Option α)) (i : Int) (v : Option α) (j : Int) :
    jsGet (jsSet l i v) j = if 0 ≤ j ∧ i = j then v else jsGet l j := by
  by_cases hj : 0 ≤ j
  · by_cases hi : 0 ≤ i
    · unfold jsSet
      rw [if_pos hi]
      by_cases hij : i = j
      · subst hij
        rw [if_pos ⟨hj, rfl⟩]
        rw [jsGet, if_pos hj]
        rw [List.getElem?_set_self (by
          simp [List.length_append, List.length_replicate]; omega)]
        simp
      · rw [if_neg (by tauto)]
        have hne : i.toNat ≠ j.toNat := by omega
        rw [jsGet, if_pos hj, List.getElem?_set_ne hne, List.getElem?_append]
        rw [jsGet, if_pos hj]
        split
        · rfl
        · rename_i hlen
          rw [List.getElem?_eq_none (by omega : l.length ≤ j.toNat)]
          by_cases hrep : j.toNat - l.length < i.toNat + 1 - l.length
          · rw [List.getElem?_replicate_of_lt hrep]
            rfl
          · rw [List.getElem?_eq_none (by simp [List.length_replicate]; omega)]
    · rw [jsSet, if_neg hi, if_neg (by intro h; omega)]
  · rw [jsGet_neg _ _ (by omega), jsGet_neg _ _ (by omega), if_neg (by tauto)]

theorem jsGet_append_replicate_none {α : Type} (l : List (Option α)) (k : Nat) (j : Int) :
    jsGet (l ++ List.replicate k none) j = jsGet l j := by
  by_cases hj : 0 ≤ j
  · rw [jsGet, if_pos hj, jsGet, if_pos hj, List.getElem?_append]
    split
    · rfl
    · rename_i hlen
      rw [List.getElem?_eq_none (by omega : l.length ≤ j.toNat)]
      by_cases hrep : j.toNat - l.length < k
      · rw [List.getElem?_replicate_of_lt hrep]
        rfl
      · rw [List.getElem?_eq_none (by simp [List.length_replicate]; omega)]
  · rw [jsGet_neg _ _ (by omega), jsGet_neg _ _ (by omega)]

theorem jsGet_replicate_none {α : Type} (k : Nat) (j : Int) :
    jsGet (List.replicate k (none : Option α)) j = none := by
  have := jsGet_append_replicate_none ([] : List (Option α)) k j
  simp [jsGet] at this
  simp [jsGet, this]

theorem jsGet_map {α : Type} (f : Option α → Option α) (hf : f none = none)
    (l : List (Option α)) (j : Int) : jsGet (l.map f) j = f (jsGet l j) := by
  by_cases hj : 0 ≤ j
  · rw [jsGet, if_pos hj, jsGet, if_pos hj, List.getElem?_map]
    cases l[j.toNat]? with
    | none => simp [hf]
    | some x => simp
  · rw [jsGet_neg _ _ (by omega), jsGet_neg _ _ (by omega), hf]

theorem list_ext_jsGet {α : Type} (l l' : List (Option α)) (hlen : l.length = l'.length)
    (h : ∀ j : Nat, jsGet l (j : Int) = jsGet l' (j : Int)) : l = l' := by
  apply List.ext_getElem?
  intro n
  by_cases hn : n < l.length
  · rw [getElem?_eq_some_jsGet _ _ hn, getElem?_eq_some_jsGet _ _ (hlen ▸ hn), h]
  · rw [List.getElem?_eq_none (by omega), List.getElem?_eq_none (by omega)]

/-! ## Characterizing swapSlots position by position -/

theorem reId_reId (k k' : Nat) (v : Option HarpoonSlot) :
    reId k (reId k' v) = reId k v := by
  cases v <;> rfl

theorem reId_eq_self (k : Nat) (v : Option HarpoonSlot)
    (h : ∀ s : HarpoonSlot, v = some s → s.id = k) : reId k v = v := by
  cases v with
  | none => rfl
  | some s =>
    have hs := h s rfl
    simp [reId, ← hs]

theorem reId_some (k : Nat) (v : Option HarpoonSlot) (s : HarpoonSlot)
    (h : reId k v = some s) : s.id = k := by
  cases v with
  | none => simp [reId] at h
  | some s' =>
    simp [reId] at h
    rw [← h]

theorem jsGet_updateIdAt (l : List (Option HarpoonSlot)) (i : Int) (k : Nat) (j : Int) :
    jsGet (updateIdAt l i k) j =
      if 0 ≤ j ∧ i = j then reId k (jsGet l i) else jsGet l j := by
  unfold updateIdAt
  split
  · rename_i s h
    rw [jsGet_jsSet, h]
    by_cases hc : 0 ≤ j ∧ i = j
    · rw [if_pos hc, if_pos hc]
      rfl
    · rw [if_neg hc, if_neg hc]
  · rename_i h
    rw [h]
    by_cases hc : 0 ≤ j ∧ i = j
    · rw [if_pos hc, ← hc.2, h]
      rfl
    · rw [if_neg hc]

/-- What `swapSlots` leaves at each (element-readable) position: position
`slotA - 1` receives the old occupant of position `slotB - 1` renumbered
to `slotA`, position `slotB - 1` the old occupant of `slotA - 1`
renumbered to `slotB`, and every other position is untouched.  Holds for
arbitrary slot numbers, including 0 (negative JS index, a dead write)
and out-of-range ones (which extend the array). -/
theorem jsGet_swapSlots (slotA slotB : Nat) (st : HarpoonState) (j : Nat) :
    jsGet (swapSlots slotA slotB st).slots (j : Int) =
      if (slotA : Int) - 1 = (j : Int) then
        reId slotA (jsGet st.slots ((slotB : Int) - 1))
      else if (slotB : Int) - 1 = (j : Int) then
        reId slotB (jsGet st.slots ((slotA : Int) - 1))
      else jsGet st.slots (j : Int) := by
  unfold swapSlots
  set l := st.slots with hl
  set ia : Int := (slotA : Int) - 1 with hia
  set ib : Int := (slotB : Int) - 1 with hib
  simp only []
  set A := jsGet l ia with hA
  set B := jsGet l ib with hB
  set ns2 := jsSet (jsSet l ia B) ib A with hns2
  have g2 : ∀ x : Int, jsGet ns2 x =
      if 0 ≤ x ∧ ib = x then A else if 0 ≤ x ∧ ia = x then B else jsGet l x := by
    intro x
    rw [hns2, jsGet_jsSet, jsGet_jsSet]
  set ns3 := updateIdAt ns2 ia slotA with hns3
  have g3 : ∀ x : Int, jsGet ns3 x =
      if 0 ≤ x ∧ ia = x then reId slotA (jsGet ns2 ia) else jsGet ns2 x := by
    intro x
    rw [hns3, jsGet_updateIdAt]
  have g4 : jsGet (updateIdAt ns3 ib slotB) (j : Int) =
      if 0 ≤ (j : Int) ∧ ib = (j : Int) then reId slotB (jsGet ns3 ib)
      else jsGet ns3 (j : Int) := by
    rw [jsGet_updateIdAt]
  rw [g4]
  by_cases hjb : ib = (j : Int)
  · rw [if_pos ⟨by omega, hjb⟩, g3 ib]
    by_cases hab : ia = ib
    · have hslots : slotA = slotB := by omega
      have hBA : B = A := by rw [hB, hA, hab]
      rw [if_pos ⟨by omega, hab⟩, g2 ia, if_pos ⟨by omega, hab.symm⟩, reId_reId,
        if_pos (hab.trans hjb), hBA, hslots]
    · rw [if_neg (by intro hc; exact hab hc.2), g2 ib, if_pos ⟨by omega, rfl⟩,
        if_neg (by intro hc; omega), if_pos hjb]
  · rw [if_neg (by intro hc; exact hjb hc.2), g3 (j : Int)]
    by_cases hja : ia = (j : Int)
    · rw [if_pos ⟨by omega, hja⟩, g2 ia, if_neg (by intro hc; omega),
        if_pos ⟨by omega, rfl⟩, if_pos hja]
    · rw [if_neg (by intro hc; exact hja hc.2), g2 (j : Int),
        if_neg (by intro hc; exact hjb hc.2), if_neg (by intro hc; exact hja hc.2),
        if_neg hja, if_neg hjb]

theorem jsGet_some_bounds {α : Type} (l : List (Option α)) (i : Int) (s : α)
    (h : jsGet l i = some s) : 0 ≤ i ∧ i.toNat < l.length := by
  unfold jsGet at h
  by_cases h0 : 0 ≤ i
  · refine ⟨h0, ?_⟩
    rw [if_pos h0] at h
    by_cases hlt : i.toNat < l.length
    · exact hlt
    · rw [List.getElem?_eq_none (by omega)] at h
      simp at h
  · rw [if_neg h0] at h
    simp at h

theorem length_updateIdAt (l : List (Option HarpoonSlot)) (i : Int) (k : Nat) :
    (updateIdAt l i k).length = l.length := by
  unfold updateIdAt
  split
  · rename_i s h
    have hb := jsGet_some_bounds l i s h
    rw [length_jsSet, if_pos hb.1]
    omega
  · rfl

theorem length_jsSet_inbounds {α : Type} (l : List (Option α)) (i : Int) (v : Option α)
    (h0 : 0 ≤ i) (h : i.toNat < l.length) : (jsSet l i v).length = l.length := by
  rw [length_jsSet, if_pos h0]
  omega

theorem length_swapSlots_inbounds (slotA slotB : Nat) (st : HarpoonState)
    (ha : 1 ≤ slotA) (ha2 : slotA ≤ st.slots.length)
    (hb : 1 ≤ slotB) (hb2 : slotB ≤ st.slots.length) :
    (swapSlots slotA slotB st).slots.length = st.slots.length := by
  unfold swapSlots
  simp only []
  rw [length_updateIdAt, length_updateIdAt]
  rw [length_jsSet_inbounds _ _ _ (by omega) (by
    rw [length_jsSet_inbounds _ _ _ (by omega) (by omega)]
    omega)]
  rw [length_jsSet_inbounds _ _ _ (by omega) (by omega)]

theorem HarpoonState_ext (s1 s2 : HarpoonState)
    (h1 : s1.slots = s2.slots) (h2 : s1.maxSlots = s2.maxSlots) : s1 = s2 := by
  cases s1
  cases s2
  simp_all

theorem maxSlots_swapSlots (slotA slotB : Nat) (st : HarpoonState) :
    (swapSlots slotA slotB st).maxSlots = st.maxSlots := rfl

/-- C6: swapSlots is self-inverse on well-formed registry states: for a
state satisfying the slot-id invariant, swapping two slots that lie
within the slots array (as every in-range slot number 1..maxSlots does
on a well-formed state) twice restores the state bit-for-bit. -/
theorem swapSlots_involutive (slotA slotB : Nat) (st : HarpoonState)
    (hinv : slotsInvariant st)
    (ha : 1 ≤ slotA) (ha2' : slotA ≤ st.slots.length)
    (hb : 1 ≤ slotB) (hb2' : slotB ≤ st.slots.length) :
    swapSlots slotA slotB (swapSlots slotA slotB st) = st := by
  set st' := swapSlots slotA slotB st with hst'
  have hcastA : (slotA : Int) - 1 = ((slotA - 1 : Nat) : Int) := by omega
  have hcastB : (slotB : Int) - 1 = ((slotB - 1 : Nat) : Int) := by omega
  set va := jsGet st.slots ((slotA : Int) - 1) with hva
  set vb := jsGet st.slots ((slotB : Int) - 1) with hvb
  have hinva : reId slotA va = va := by
    apply reId_eq_self
    intro s hs
    have := hinv (slotA - 1) s (by rw [← hcastA, ← hva]; exact hs)
    omega
  have hinvb : reId slotB vb = vb := by
    apply reId_eq_self
    intro s hs
    have := hinv (slotB - 1) s (by rw [← hcastB, ← hvb]; exact hs)
    omega
  have hga : jsGet st'.slots ((slotA : Int) - 1) = reId slotA vb := by
    rw [hst', hcastA, jsGet_swapSlots, if_pos (by omega)]
  have hgb : jsGet st'.slots ((slotB : Int) - 1) = reId slotB va := by
    rw [hst', hcastB, jsGet_swapSlots]
    by_cases hab : slotA = slotB
    · rw [if_pos (by omega), hab, ← hvb]
      subst hab
      rfl
    · rw [if_neg (by omega), if_pos (by omega)]
  apply HarpoonState_ext
  · apply list_ext_jsGet
    · rw [length_swapSlots_inbounds _ _ _ ha (by
        rw [hst', length_swapSlots_inbounds _ _ _ ha ha2' hb hb2']
        omega)
        hb (by
        rw [hst', length_swapSlots_inbounds _ _ _ ha ha2' hb hb2']
        omega)]
      rw [hst', length_swapSlots_inbounds _ _ _ ha ha2' hb hb2']
    · intro j
      rw [jsGet_swapSlots]
      by_cases hja : (slotA : Int) - 1 = (j : Int)
      · rw [if_pos hja, hgb, reId_reId, hinva, hva, hja]
      · rw [if_neg hja]
        by_cases hjb : (slotB : Int) - 1 = (j : Int)
        · rw [if_pos hjb, hga, reId_reId, hinvb, hvb, hjb]
        · rw [if_neg hjb, hst', jsGet_swapSlots, if_neg hja, if_neg hjb]
  · rw [maxSlots_swapSlots, hst', maxSlots_swapSlots]

/-! ## Preservation of the slot-id invariant by every registry operation -/

theorem slotsInvariant_default : slotsInvariant DEFAULT_HARPOON_STATE := by
  intro j s h
  have : DEFAULT_HARPOON_STATE.slots = List.replicate 5 none := rfl
  rw [this, jsGet_replicate_none] at h
  cases h

theorem slotsInvariant_markToSlot (tab : Option Tab) (slotId : Nat) (st : HarpoonState)
    (hinv : slotsInvariant st) : slotsInvariant (markToSlot tab slotId st).2 := by
  unfold markToSlot
  split
  · exact hinv
  · rename_i t
    split
    · rename_i tid url hmatch
      split
      · exact hinv
      · intro j s h
        dsimp only [] at h
        rw [jsGet_jsSet] at h
        split at h
        · rename_i hc
          have hs := Option.some.inj h
          rw [← hs]
          show slotId = j + 1
          omega
        · rw [jsGet_append_replicate_none] at h
          exact hinv j s h
    · exact hinv

theorem slotsInvariant_removeFromSlot (slotId : Nat) (st : HarpoonState)
    (hinv : slotsInvariant st) : slotsInvariant (removeFromSlot slotId st) := by
  unfold removeFromSlot
  split
  · intro j s h
    rw [jsGet_jsSet] at h
    split at h
    · cases h
    · exact hinv j s h
  · exact hinv

theorem slotsInvariant_removeByUrl (url : String) (st : HarpoonState)
    (hinv : slotsInvariant st) : slotsInvariant (removeByUrl url st) := by
  intro j s h
  unfold removeByUrl at h
  simp only [] at h
  rw [jsGet_map _ rfl] at h
  cases hx : jsGet st.slots (j : Int) with
  | none =>
    rw [hx] at h
    cases h
  | some s0 =>
    rw [hx] at h
    simp only [] at h
    split at h
    · cases h
    · have hs := Option.some.inj h
      rw [← hs]
      exact hinv j s0 hx

theorem slotsInvariant_clearAll (st : HarpoonState) :
    slotsInvariant (clearAll st) := by
  intro j s h
  unfold clearAll at h
  simp only [] at h
  rw [jsGet_replicate_none] at h
  cases h

theorem slotsInvariant_swapSlots (slotA slotB : Nat) (st : HarpoonState)
    (hinv : slotsInvariant st) : slotsInvariant (swapSlots slotA slotB st) := by
  intro j s h
  rw [jsGet_swapSlots] at h
  split at h
  · rename_i hc
    have := reId_some _ _ _ h
    omega
  · split at h
    · rename_i hc
      have := reId_some _ _ _ h
      omega
    · exact hinv j s h

theorem getElem?_renumberFrom (k : Nat) (l : List (Option HarpoonSlot)) (j : Nat) :
    (renumberFrom k l)[j]? = (l[j]?).map (reId (k + j + 1)) := by
  induction l generalizing k j with
  | nil => simp [renumberFrom]
  | cons hd tl ih =>
    cases j with
    | zero =>
      cases hd <;> simp [renumberFrom, reId]
    | succ n =>
      simp only [renumberFrom, List.getElem?_cons_succ]
      rw [ih (k + 1) n]
      have : k + 1 + n + 1 = k + (n + 1) + 1 := by omega
      rw [this]

theorem jsGet_renumberFrom_zero_id (l : List (Option HarpoonSlot)) (j : Nat)
    (s : HarpoonSlot) (h : jsGet (renumberFrom 0 l) (j : Int) = some s) : s.id = j + 1 := by
  rw [jsGet_eq_some_iff, getElem?_renumberFrom] at h
  cases hx : l[j]? with
  | none =>
    rw [hx] at h
    cases h
  | some x =>
    rw [hx] at h
    rw [Option.map_some'] at h
    have h2 := Option.some.inj h
    have h3 := reId_some _ _ _ h2
    omega

theorem slotsInvariant_moveSlot (fromSlot toSlot : Nat) (st : HarpoonState)
    (hinv : slotsInvariant st) : slotsInvariant (moveSlot fromSlot toSlot st) := by
  unfold moveSlot
  split
  · exact hinv
  · intro j s h
    exact jsGet_renumberFrom_zero_id _ j s h

theorem syncSlot_none (tabs : List Tab) : syncSlot tabs none = none := rfl

theorem syncSlot_id (tabs : List Tab) (x : Option HarpoonSlot) (s : HarpoonSlot)
    (h : syncSlot tabs x = some s) : ∃ s0, x = some s0 ∧ s.id = s0.id := by
  unfold syncSlot at h
  cases x with
  | none => cases h
  | some s0 =>
    refine ⟨s0, rfl, ?_⟩
    simp only [] at h
    split at h
    · cases h
      rfl
    · split at h
      · cases h
        rfl
      · split at h
        · split at h
          · cases h
            rfl
          · cases h
            rfl
        · cases h
          rfl

theorem slotsInvariant_syncWithTabs (tabs : List Tab) (st : HarpoonState)
    (hinv : slotsInvariant st) : slotsInvariant (syncWithTabs tabs st) := by
  intro j s h
  unfold syncWithTabs at h
  simp only [] at h
  rw [jsGet_map _ (syncSlot_none tabs)] at h
  obtain ⟨s0, hs0, hid⟩ := syncSlot_id tabs _ s h
  rw [hid]
  exact hinv j s0 hs0

theorem slotsInvariant_applyOp (op : RegOp) (st : HarpoonState)
    (hinv : slotsInvariant st) : slotsInvariant (applyOp op st) := by
  cases op with
  | mark slotId tab => exact slotsInvariant_markToSlot tab slotId st hinv
  | remove slotId => exact slotsInvariant_removeFromSlot slotId st hinv
  | removeUrl url => exact slotsInvariant_removeByUrl url st hinv
  | swap a b => exact slotsInvariant_swapSlots a b st hinv
  | move f t => exact slotsInvariant_moveSlot f t st hinv
  | clear => exact slotsInvariant_clearAll st
  | sync tabs => exact slotsInvariant_syncWithTabs tabs st hinv

theorem slotsInvariant_foldl (ops : List RegOp) (st : HarpoonState)
    (hinv : slotsInvariant st) :
    slotsInvariant (ops.foldl (fun st op => applyOp op st) st) := by
  induction ops generalizing st with
  | nil => exact hinv
  | cons op rest ih => exact ih _ (slotsInvariant_applyOp op st hinv)

/-- C2: starting from the initial all-empty registry, after any sequence
of registry operations (markToSlot, removeFromSlot, removeByUrl,
swapSlots, moveSlot, clearAll, syncWithTabs) with arbitrary arguments,
every occupied slot record has `id` equal to its array position plus 1. -/
theorem registry_id_invariant (ops : List RegOp) : slotsInvariant (applySeq ops) :=
  slotsInvariant_foldl ops DEFAULT_HARPOON_STATE slotsInvariant_default

/-! ## syncWithTabs: idempotence and the stale-handle frame property -/

theorem getTabById_isSome_of_mem (tabs : List Tab) (t : Tab) (nid : Nat)
    (hmem : t ∈ tabs) (hid : t.id = some nid) : (getTabById tabs nid).isSome := by
  unfold getTabById
  rw [List.find?_isSome]
  exact ⟨t, hmem, by rw [hid]; simp⟩

theorem syncSlot_eq_self_of_resolved (tabs : List Tab) (s : HarpoonSlot) (tid : Nat)
    (htid : s.tabId = some tid) (hres : (getTabById tabs tid).isSome) :
    syncSlot tabs (some s) = some s := by
  simp only [syncSlot, htid]
  cases hr : getTabById tabs tid with
  | none => simp [hr] at hres
  | some t => simp [hr]

theorem syncSlot_idem (tabs : List Tab) (x : Option HarpoonSlot) :
    syncSlot tabs (syncSlot tabs x) = syncSlot tabs x := by
  cases x with
  | none => rfl
  | some s =>
    cases htid : s.tabId with
    | none =>
      have hr : syncSlot tabs (some s) = some s := by
        simp only [syncSlot, htid]
      rw [hr]
      exact hr
    | some tid =>
      cases hby : getTabById tabs tid with
      | some t =>
        have hr : syncSlot tabs (some s) = some s :=
          syncSlot_eq_self_of_resolved tabs s tid htid (by rw [hby]; rfl)
        rw [hr]
        exact hr
      | none =>
        cases hfind : findTabByUrl tabs s.url with
        | none =>
          have hr : syncSlot tabs (some s) = some s := by
            simp only [syncSlot, htid, hby, hfind]
          rw [hr]
          exact hr
        | some t =>
          cases hnid : t.id with
          | none =>
            have hr : syncSlot tabs (some s) = some s := by
              simp only [syncSlot, htid, hby, hfind, hnid]
            rw [hr]
            exact hr
          | some nid =>
            have hr : syncSlot tabs (some s) =
                some { s with tabId := some nid, windowId := t.windowId } := by
              simp only [syncSlot, htid, hby, hfind, hnid]
            rw [hr]
            have hmem : t ∈ tabs := List.mem_of_find?_eq_some hfind
            exact syncSlot_eq_self_of_resolved tabs _ nid rfl
              (getTabById_isSome_of_mem tabs t nid hmem hnid)

theorem syncSlot_eq_self_of_stale (tabs : List Tab) (s : HarpoonSlot)
    (hdead : ∀ tid, s.tabId = some tid → getTabById tabs tid = none)
    (hnourl : findTabByUrl tabs s.url = none) :
    syncSlot tabs (some s) = some s := by
  simp only [syncSlot]
  cases htid : s.tabId with
  | none => rfl
  | some tid =>
    simp only [hdead tid htid, hnourl]

/-- C5: syncWithTabs is idempotent against a fixed set of live tabs, and
a slot whose stored tab id resolves to no live tab and whose URL matches
no live tab is left completely untouched (the stale handle is kept). -/
theorem syncWithTabs_idempotent_and_keeps_stale (tabs : List Tab) (st : HarpoonState) :
    syncWithTabs tabs (syncWithTabs tabs st) = syncWithTabs tabs st ∧
    (∀ (i : Nat) (s : HarpoonSlot), st.slots[i]? = some (some s) →
      (∀ tid, s.tabId = some tid → getTabById tabs tid = none) →
      findTabByUrl tabs s.url = none →
      (syncWithTabs tabs st).slots[i]? = some (some s)) := by
  constructor
  · unfold syncWithTabs
    apply HarpoonState_ext
    · simp only []
      rw [List.map_map]
      apply List.map_congr_left
      intro x _
      exact syncSlot_idem tabs x
    · rfl
  · intro i s hslot hdead hnourl
    unfold syncWithTabs
    simp only []
    rw [List.getElem?_map, hslot, Option.map_some']
    rw [syncSlot_eq_self_of_stale tabs s hdead hnourl]

/-! ## jumpToSlot resolution order -/

theorem jumpToSlot_of_empty (tabs : List Tab) (reopen : Bool) (newTabFor : String → Tab)
    (slotId : Nat) (st : HarpoonState)
    (h : jsGet st.slots ((slotId : Int) - 1) = none) :
    jumpToSlot tabs reopen newTabFor slotId st = (false, st, JumpEffect.noAction) := by
  simp only [jumpToSlot, h]

theorem jumpToSlot_of_live_id (tabs : List Tab) (reopen : Bool) (newTabFor : String → Tab)
    (slotId : Nat) (st : HarpoonState) (slot : HarpoonSlot) (tid : Nat) (tab : Tab)
    (hslot : jsGet st.slots ((slotId : Int) - 1) = some slot)
    (htid : slot.tabId = some tid) (htab : getTabById tabs tid = some tab) :
    jumpToSlot tabs reopen newTabFor slotId st =
      (true, st, JumpEffect.activated tab.id tab.windowId) := by
  simp only [jumpToSlot, hslot, htid, htab]

theorem jumpToSlot_of_url_match (tabs : List Tab) (reopen : Bool) (newTabFor : String → Tab)
    (slotId : Nat) (st : HarpoonState) (slot : HarpoonSlot) (t : Tab) (nid : Nat)
    (hslot : jsGet st.slots ((slotId : Int) - 1) = some slot)
    (hdead : slot.tabId.bind (getTabById tabs) = none)
    (hfind : findTabByUrl tabs slot.url = some t) (hnid : t.id = some nid) :
    jumpToSlot tabs reopen newTabFor slotId st =
      (true, healSlot st slotId (some nid) t.windowId,
        JumpEffect.activated (some nid) t.windowId) := by
  cases htid : slot.tabId with
  | none =>
    simp only [jumpToSlot, hslot, htid, jumpAfterIdProbe, hfind, hnid]
  | some tid =>
    rw [htid, Option.some_bind] at hdead
    simp only [jumpToSlot, hslot, htid, hdead, jumpAfterIdProbe, hfind, hnid]

theorem jumpToSlot_of_unavailable (tabs : List Tab) (newTabFor : String → Tab)
    (slotId : Nat) (st : HarpoonState) (slot : HarpoonSlot)
    (hslot : jsGet st.slots ((slotId : Int) - 1) = some slot)
    (hdead : slot.tabId.bind (getTabById tabs) = none)
    (hnourl : (findTabByUrl tabs slot.url).bind (fun t => t.id) = none) :
    jumpToSlot tabs false newTabFor slotId st = (false, st, JumpEffect.noAction) := by
  have hstep : jumpReopenStep false newTabFor slotId slot st =
      (false, st, JumpEffect.noAction) := by
    simp only [jumpReopenStep, Bool.false_eq_true, if_false]
  have hprobe : jumpAfterIdProbe tabs false newTabFor slotId slot st =
      (false, st, JumpEffect.noAction) := by
    cases hfind : findTabByUrl tabs slot.url with
    | none => simp only [jumpAfterIdProbe, hfind, hstep]
    | some t =>
      rw [hfind, Option.some_bind] at hnourl
      simp only [jumpAfterIdProbe, hfind, hnourl, hstep]
  cases htid : slot.tabId with
  | none => simp only [jumpToSlot, hslot, htid, hprobe]
  | some tid =>
    rw [htid, Option.some_bind] at hdead
    simp only [jumpToSlot, hslot, htid, hdead, hprobe]

theorem jumpToSlot_of_reopen (tabs : List Tab) (newTabFor : String → Tab)
    (slotId : Nat) (st : HarpoonState) (slot : HarpoonSlot)
    (hslot : jsGet st.slots ((slotId : Int) - 1) = some slot)
    (hdead : slot.tabId.bind (getTabById tabs) = none)
    (hnourl : (findTabByUrl tabs slot.url).bind (fun t => t.id) = none) :
    (jumpToSlot tabs true newTabFor slotId st).1 = true ∧
    (jumpToSlot tabs true newTabFor slotId st).2.2 = JumpEffect.created slot.url := by
  have hstep : (jumpReopenStep true newTabFor slotId slot st).1 = true ∧
      (jumpReopenStep true newTabFor slotId slot st).2.2 = JumpEffect.created slot.url := by
    cases hnt : (newTabFor slot.url).id with
    | none => simp [jumpReopenStep, hnt]
    | some n => simp [jumpReopenStep, hnt]
  have hprobe : (jumpAfterIdProbe tabs true newTabFor slotId slot st).1 = true ∧
      (jumpAfterIdProbe tabs true newTabFor slotId slot st).2.2 =
        JumpEffect.created slot.url := by
    cases hfind : findTabByUrl tabs slot.url with
    | none => simp only [jumpAfterIdProbe, hfind]; exact hstep
    | some t =>
      rw [hfind, Option.some_bind] at hnourl
      simp only [jumpAfterIdProbe, hfind, hnourl]
      exact hstep
  cases htid : slot.tabId with
  | none => simp only [jumpToSlot, hslot, htid]; exact hprobe
  | some tid =>
    rw [htid, Option.some_bind] at hdead
    simp only [jumpToSlot, hslot, htid, hdead]
    exact hprobe

/-- C1: jumpToSlot resolves in the fixed order — an empty slot fails with
no action; a stored tab id that still resolves activates that tab and
succeeds; otherwise a live tab with the stored URL is self-healed into
the record and activated; otherwise a new tab at the stored URL is
created only when the reopen setting is enabled, and with it disabled the
call fails with no action.  In particular, when live tabs carry ids and
some live tab shares the slot's URL, jump activates an existing live tab
and never creates one. -/
theorem jumpToSlot_resolution_order (tabs : List Tab) (reopen : Bool)
    (newTabFor : String → Tab) (slotId : Nat) (st : HarpoonState) :
    (jsGet st.slots ((slotId : Int) - 1) = none →
      jumpToSlot tabs reopen newTabFor slotId st = (false, st, JumpEffect.noAction)) ∧
    (∀ slot tid tab, jsGet st.slots ((slotId : Int) - 1) = some slot →
      slot.tabId = some tid → getTabById tabs tid = some tab →
      jumpToSlot tabs reopen newTabFor slotId st =
        (true, st, JumpEffect.activated tab.id tab.windowId)) ∧
    (∀ slot t nid, jsGet st.slots ((slotId : Int) - 1) = some slot →
      slot.tabId.bind (getTabById tabs) = none →
      findTabByUrl tabs slot.url = some t → t.id = some nid →
      jumpToSlot tabs reopen newTabFor slotId st =
        (true, healSlot st slotId (some nid) t.windowId,
          JumpEffect.activated (some nid) t.windowId)) ∧
    (∀ slot, jsGet st.slots ((slotId : Int) - 1) = some slot →
      slot.tabId.bind (getTabById tabs) = none →
      (findTabByUrl tabs slot.url).bind (fun t => t.id) = none →
      reopen = false →
      jumpToSlot tabs reopen newTabFor slotId st = (false, st, JumpEffect.noAction)) ∧
    (∀ slot, jsGet st.slots ((slotId : Int) - 1) = some slot →
      slot.tabId.bind (getTabById tabs) = none →
      (findTabByUrl tabs slot.url).bind (fun t => t.id) = none →
      reopen = true →
      (jumpToSlot tabs reopen newTabFor slotId st).1 = true ∧
      (jumpToSlot tabs reopen newTabFor slotId st).2.2 = JumpEffect.created slot.url) ∧
    ((∀ t ∈ tabs, t.id.isSome) →
      ∀ slot, jsGet st.slots ((slotId : Int) - 1) = some slot →
      (∃ t ∈ tabs, t.url = some slot.url) →
      (jumpToSlot tabs reopen newTabFor slotId st).1 = true ∧
      (∃ t ∈ tabs, (jumpToSlot tabs reopen newTabFor slotId st).2.2 =
        JumpEffect.activated t.id t.windowId) ∧
      (∀ u, (jumpToSlot tabs reopen newTabFor slotId st).2.2 ≠ JumpEffect.created u)) := by
  refine ⟨jumpToSlot_of_empty tabs reopen newTabFor slotId st, ?_, ?_, ?_, ?_, ?_⟩
  · intro slot tid tab hslot htid htab
    exact jumpToSlot_of_live_id tabs reopen newTabFor slotId st slot tid tab hslot htid htab
  · intro slot t nid hslot hdead hfind hnid
    exact jumpToSlot_of_url_match tabs reopen newTabFor slotId st slot t nid
      hslot hdead hfind hnid
  · intro slot hslot hdead hnourl hro
    subst hro
    exact jumpToSlot_of_unavailable tabs newTabFor slotId st slot hslot hdead hnourl
  · intro slot hslot hdead hnourl hro
    subst hro
    exact jumpToSlot_of_reopen tabs newTabFor slotId st slot hslot hdead hnourl
  · intro hall slot hslot hex
    cases hdead : slot.tabId.bind (getTabById tabs) with
    | some tab =>
      have htid : ∃ tid, slot.tabId = some tid ∧ getTabById tabs tid = some tab := by
        cases htid : slot.tabId with
        | none => rw [htid, Option.none_bind] at hdead; cases hdead
        | some tid =>
          rw [htid, Option.some_bind] at hdead
          exact ⟨tid, rfl, hdead⟩
      obtain ⟨tid, htid, htab⟩ := htid
      have hres := jumpToSlot_of_live_id tabs reopen newTabFor slotId st slot tid tab
        hslot htid htab
      have hmem : tab ∈ tabs := List.mem_of_find?_eq_some htab
      rw [hres]
      exact ⟨rfl, ⟨tab, hmem, rfl⟩, fun u h => by cases h⟩
    | none =>
      obtain ⟨t0, hmem0, hurl0⟩ := hex
      have hfindsome : (findTabByUrl tabs slot.url).isSome := by
        unfold findTabByUrl
        rw [List.find?_isSome]
        exact ⟨t0, hmem0, by rw [hurl0]; simp⟩
      obtain ⟨t, hfind⟩ := Option.isSome_iff_exists.mp hfindsome
      have hmem : t ∈ tabs := List.mem_of_find?_eq_some hfind
      obtain ⟨nid, hnid⟩ := Option.isSome_iff_exists.mp (hall t hmem)
      have hres := jumpToSlot_of_url_match tabs reopen newTabFor slotId st slot t nid
        hslot hdead hfind hnid
      rw [hres]
      refine ⟨rfl, ⟨t, hmem, ?_⟩, fun u h => by cases h⟩
      rw [hnid]

/-! ## Sequence matcher: ignore, dead-end and non-token properties -/

/-- C7: while the buffer is empty, a key event whose normalized token is
not the leader token Space is not consumed, emits no action, and leaves
the (empty) buffer and the whole manager state unchanged. -/
theorem idle_nonleader_not_consumed (keybinds : List KeybindDef) (st : MatcherState)
    (event : KeyEvent) (k : String)
    (hbuf : st.currentSequence = [])
    (hk : getKeyName event = some k) (hne : k ≠ "Space") :
    handleKeyDown keybinds st event = (false, st, []) := by
  cases hen : st.enabled with
  | false => simp [handleKeyDown, hen]
  | true =>
    cases hin : event.targetIsInput with
    | true => simp [handleKeyDown, hen, hin]
    | false =>
      simp [handleKeyDown, handleToken, hen, hin, hk, hbuf, hne]

/-- C8: a keystroke whose extended buffer matches no binding exactly and
is a strict prefix of none (findMatch yields the dead-end result) is not
consumed, emits no action, and resets the buffer to empty. -/
theorem dead_end_resets_and_falls_through (keybinds : List KeybindDef) (st : MatcherState)
    (event : KeyEvent) (k : String)
    (hen : st.enabled = true) (hin : event.targetIsInput = false)
    (hk : getKeyName event = some k)
    (hnone : findMatch keybinds (st.currentSequence ++ [k]) = MatchResult.none) :
    (handleKeyDown keybinds st event).1 = false ∧
    (handleKeyDown keybinds st event).2.1.currentSequence = [] ∧
    (handleKeyDown keybinds st event).2.2 = [] := by
  have h1 : handleKeyDown keybinds st event = handleToken keybinds st k := by
    simp [handleKeyDown, hen, hin, hk]
  rw [h1]
  unfold handleToken
  by_cases hc : (st.currentSequence.length == 0 && k != "Space") = true
  · rw [if_pos hc]
    rw [Bool.and_eq_true] at hc
    have hbuf : st.currentSequence = [] := by
      have := hc.1
      rw [beq_iff_eq] at this
      exact List.length_eq_zero.mp this
    exact ⟨rfl, hbuf, rfl⟩
  · rw [if_neg hc]
    simp only [hnone]
    simp

/-- C10: a keydown whose key does not normalize to a token (not Space by
code, not Escape, not a single alphanumeric character) returns false and
leaves the entire manager state — buffer and pending timeout — unchanged. -/
theorem non_token_keys_inert (keybinds : List KeybindDef) (st : MatcherState)
    (event : KeyEvent) :
    (getKeyName event = none ↔
      ¬(event.code = "Space" ∨ event.key = "Escape" ∨
        (event.key.length = 1 ∧ strAll event.key Char.isAlphanum = true))) ∧
    (getKeyName event = none → handleKeyDown keybinds st event = (false, st, [])) := by
  constructor
  · constructor
    · intro h
      unfold getKeyName at h
      split_ifs at h with h1 h2 h3
      intro hor
      rcases hor with hc | hc | hc
      · exact h1 (by simp [hc])
      · exact h2 (by simp [hc])
      · exact h3 (by simp [hc.1, hc.2])
    · intro h
      unfold getKeyName
      push_neg at h
      obtain ⟨h1, h2, h3⟩ := h
      rw [if_neg (by simp [h1]), if_neg (by simp [h2]),
        if_neg (by
          simp only [Bool.and_eq_true, beq_iff_eq, not_and]
          intro hlen hall
          exact h3 hlen hall)]
  · intro h
    cases hen : st.enabled with
    | false => simp [handleKeyDown, hen]
    | true =>
      cases hin : event.targetIsInput with
      | true => simp [handleKeyDown, hen, hin]
      | false => simp [handleKeyDown, hen, hin, h]

/-! ## Sequence matcher: exact-match completion (C3) -/

theorem zip_all_toLower_iff_prefixOf :
    ∀ (a b : List String), a.length ≤ b.length →
      (((List.zip a b).all (fun p => strToLower p.1 == strToLower p.2)) = true ↔
        (a.map strToLower) <+: (b.map strToLower))
  | [], b, _ => by simp
  | x :: xs, [], h => by simp at h
  | x :: xs, y :: ys, h => by
    have ih := zip_all_toLower_iff_prefixOf xs ys (by simpa using h)
    simp only [List.zip_cons_cons, List.all_cons, Bool.and_eq_true, beq_iff_eq,
      List.map_cons, List.cons_prefix_cons]
    constructor
    · rintro ⟨hx, hall⟩
      exact ⟨hx, ih.mp hall⟩
    · rintro ⟨hx, hpre⟩
      exact ⟨hx, ih.mpr hpre⟩

theorem sequencesMatch_iff (a b : List String) :
    sequencesMatch a b = true ↔ a.map strToLower = b.map strToLower := by
  unfold sequencesMatch
  rw [Bool.and_eq_true, beq_iff_eq]
  constructor
  · rintro ⟨hlen, hall⟩
    have hpre := (zip_all_toLower_iff_prefixOf a b (le_of_eq hlen)).mp hall
    exact List.IsPrefix.eq_of_length hpre (by simp [hlen])
  · intro hmap
    have hlen : a.length = b.length := by
      have := congrArg List.length hmap
      simpa using this
    exact ⟨hlen, (zip_all_toLower_iff_prefixOf a b (le_of_eq hlen)).mpr (hmap ▸ List.prefix_rfl)⟩

theorem isPartialMatch_iff (keybind current : List String) :
    isPartialMatch keybind current = true ↔
      current.length < keybind.length ∧
        (current.map strToLower) <+: (keybind.map strToLower) := by
  unfold isPartialMatch
  rw [Bool.and_eq_true, decide_eq_true_iff]
  constructor
  · rintro ⟨hlen, hall⟩
    exact ⟨hlen, (zip_all_toLower_iff_prefixOf current keybind (le_of_lt hlen)).mp hall⟩
  · rintro ⟨hlen, hpre⟩
    exact ⟨hlen, (zip_all_toLower_iff_prefixOf current keybind (le_of_lt hlen)).mpr hpre⟩

theorem sequencesMatch_refl (l : List String) : sequencesMatch l l = true := by
  rw [sequencesMatch_iff]

theorem gate_false (pre : List String) (t : String) (h : pre = [] → t = "Space") :
    (pre.length == 0 && t != "Space") = false := by
  cases pre with
  | nil => simp [h rfl]
  | cons hd tl => simp

theorem handleToken_partial_step (keybinds : List KeybindDef) (pre : List String)
    (t : String) (arm : Bool)
    (hgate : (pre.length == 0 && t != "Space") = false)
    (hpart : findMatch keybinds (pre ++ [t]) = MatchResult.Partial) :
    handleToken keybinds { currentSequence := pre, timeoutArmed := arm, enabled := true } t =
      (true, { currentSequence := pre ++ [t], timeoutArmed := true, enabled := true }, []) := by
  simp only [handleToken, hgate, hpart]
  rfl

theorem handleToken_exact_step (keybinds : List KeybindDef) (kbF : KeybindDef)
    (pre : List String) (t : String) (arm : Bool)
    (hgate : (pre.length == 0 && t != "Space") = false)
    (hexact : findMatch keybinds (pre ++ [t]) = MatchResult.exact)
    (hfind : keybinds.find? (fun kb => sequencesMatch kb.sequence (pre ++ [t])) = some kbF) :
    handleToken keybinds { currentSequence := pre, timeoutArmed := arm, enabled := true } t =
      (true, { currentSequence := [], timeoutArmed := false, enabled := true },
        [kbF.action]) := by
  simp only [handleToken, hgate, hexact, hfind]
  rfl

theorem findMatch_exact_of_mem (keybinds : List KeybindDef) (kb0 : KeybindDef)
    (hmem : kb0 ∈ keybinds) :
    findMatch keybinds kb0.sequence = MatchResult.exact := by
  have hany : keybinds.any (fun kb => sequencesMatch kb.sequence kb0.sequence) = true := by
    rw [List.any_eq_true]
    exact ⟨kb0, hmem, sequencesMatch_refl _⟩
  simp only [findMatch, hany]
  rfl

theorem findMatch_of_proper_prefixOf (keybinds : List KeybindDef) (kb0 : KeybindDef)
    (hmem : kb0 ∈ keybinds)
    (hPF : ∀ kb ∈ keybinds, ∀ kb' ∈ keybinds, isPartialMatch kb'.sequence kb.sequence = false)
    (p q : List String) (hsplit : p ++ q = kb0.sequence) (hq : q ≠ []) :
    findMatch keybinds p = MatchResult.Partial := by
  have hplen : p.length < kb0.sequence.length := by
    rw [← hsplit, List.length_append]
    have : 0 < q.length := List.length_pos.mpr hq
    omega
  have hppre : (p.map strToLower) <+: (kb0.sequence.map strToLower) := by
    refine ⟨q.map strToLower, ?_⟩
    rw [← List.map_append, hsplit]
  have hanyex : keybinds.any (fun kb => sequencesMatch kb.sequence p) = false := by
    rw [List.any_eq_false]
    intro kb hkb hsm
    have hmap := (sequencesMatch_iff kb.sequence p).mp hsm
    have hcontra : isPartialMatch kb0.sequence kb.sequence = true := by
      rw [isPartialMatch_iff]
      constructor
      · have := congrArg List.length hmap
        simp only [List.length_map] at this
        omega
      · rw [hmap]
        exact hppre
    rw [hPF kb hkb kb0 hmem] at hcontra
    cases hcontra
  have hanypart : keybinds.any (fun kb => isPartialMatch kb.sequence p) = true := by
    rw [List.any_eq_true]
    refine ⟨kb0, hmem, ?_⟩
    rw [isPartialMatch_iff]
    exact ⟨hplen, hppre⟩
  simp only [findMatch, hanyex, hanypart]
  rfl

theorem feed_completes_aux (keybinds : List KeybindDef) (kb0 kbF : KeybindDef)
    (hmem : kb0 ∈ keybinds)
    (hPF : ∀ kb ∈ keybinds, ∀ kb' ∈ keybinds, isPartialMatch kb'.sequence kb.sequence = false)
    (hfind : keybinds.find? (fun kb => sequencesMatch kb.sequence kb0.sequence) = some kbF)
    (hleader : kb0.sequence.head? = some "Space") :
    ∀ (suf pre : List String) (arm : Bool), pre ++ suf = kb0.sequence → suf ≠ [] →
      feed keybinds { currentSequence := pre, timeoutArmed := arm, enabled := true } suf =
        ({ currentSequence := [], timeoutArmed := false, enabled := true },
          List.replicate (suf.length - 1) (true, ([] : List KeybindAction)) ++
            [(true, [kbF.action])]) := by
  intro suf
  induction suf with
  | nil =>
    intro pre arm hsplit hne
    exact absurd rfl hne
  | cons t rest ih =>
    intro pre arm hsplit hne
    have hgate : (pre.length == 0 && t != "Space") = false := by
      apply gate_false
      intro hpre
      subst hpre
      rw [List.nil_append] at hsplit
      rw [← hsplit] at hleader
      simp only [List.head?_cons, Option.some.injEq] at hleader
      exact hleader
    by_cases hrest : rest = []
    · subst hrest
      have hfull : pre ++ [t] = kb0.sequence := hsplit
      have hexact : findMatch keybinds (pre ++ [t]) = MatchResult.exact := by
        rw [hfull]
        exact findMatch_exact_of_mem keybinds kb0 hmem
      have hstep := handleToken_exact_step keybinds kbF pre t arm hgate hexact
        (by rw [hfull]; exact hfind)
      simp only [feed, hstep]
      simp
    · have hsplit' : (pre ++ [t]) ++ rest = kb0.sequence := by
        rw [List.append_assoc]
        exact hsplit
      have hpart : findMatch keybinds (pre ++ [t]) = MatchResult.Partial :=
        findMatch_of_proper_prefixOf keybinds kb0 hmem hPF (pre ++ [t]) rest hsplit' hrest
      have hstep := handleToken_partial_step keybinds pre t arm hgate hpart
      have ihr := ih (pre ++ [t]) true hsplit' hrest
      simp only [feed, hstep, ihr]
      have hlen : rest.length - 1 + 1 = rest.length :=
        Nat.succ_pred_eq_of_pos (List.length_pos.mpr hrest)
      simp only [List.length_cons, Nat.add_sub_cancel]
      rw [← hlen, List.replicate_succ]
      simp

/-- C3 (amended): in a binding table where no binding's sequence is a
strict prefix of another's (case-insensitively), feeding from the idle
state exactly the tokens of a binding whose sequence begins with the
leader token Space emits exactly one action — the action of the first
binding whose sequence case-insensitively equals the fed sequence —
consumes every event including the final one, and resets the buffer to
empty afterwards. -/
theorem exact_sequence_emits_once (keybinds : List KeybindDef) (kb0 kbF : KeybindDef)
    (st0 : MatcherState) (hmem : kb0 ∈ keybinds)
    (hPF : ∀ kb ∈ keybinds, ∀ kb' ∈ keybinds, isPartialMatch kb'.sequence kb.sequence = false)
    (hleader : kb0.sequence.head? = some "Space")
    (hfind : keybinds.find? (fun kb => sequencesMatch kb.sequence kb0.sequence) = some kbF)
    (hbuf : st0.currentSequence = []) (hen : st0.enabled = true) :
    feed keybinds st0 kb0.sequence =
      ({ currentSequence := [], timeoutArmed := false, enabled := true },
        List.replicate (kb0.sequence.length - 1) (true, ([] : List KeybindAction)) ++
          [(true, [kbF.action])]) ∧
    ((feed keybinds st0 kb0.sequence).2.map Prod.snd).flatten = [kbF.action] := by
  have hne : kb0.sequence ≠ [] := by
    intro hc
    rw [hc] at hleader
    cases hleader
  have hst : st0 =
      { currentSequence := [], timeoutArmed := st0.timeoutArmed, enabled := true } := by
    cases st0
    simp_all
  rw [hst]
  have hmain := feed_completes_aux keybinds kb0 kbF hmem hPF hfind hleader
    kb0.sequence [] st0.timeoutArmed (List.nil_append _) hne
  refine ⟨hmain, ?_⟩
  rw [hmain]
  simp

/-- C3 counterexample: the one-binding table for the sequence consisting
of the single token a is prefix-free, yet feeding exactly that binding's
token sequence from the idle state emits no action at all and consumes
nothing — the claim promises exactly one emitted action for every
prefix-free table, which fails whenever the sequence does not begin with
the leader token. -/
theorem exact_sequence_counterexample :
    (∀ kb ∈ leaderlessTable, ∀ kb' ∈ leaderlessTable,
      isPartialMatch kb'.sequence kb.sequence = false) ∧
    (leaderlessTable.map KeybindDef.sequence = [["a"]]) ∧
    feed leaderlessTable idleMatcher ["a"] = (idleMatcher, [(false, [])]) := by
  refine ⟨?_, rfl, ?_⟩
  · decide
  · decide

/-! ## Failure semantics of the registry operations (C4, C9) -/

/-- C4 counterexample: at the out-of-range index 0 the spec-modelled
remove fails with InvalidSlotIndex, but the code's removeFromSlot
returns successfully with the registry unchanged — the implementation
has no error outcome at any index. -/
theorem remove_out_of_range_counterexample :
    removeFromSlotSpec 0 sampleState = Except.error RegistryError.invalidSlotIndex ∧
    removeFromSlot 0 sampleState = sampleState := by
  constructor
  · rfl
  · decide

/-- C4 (amended): removeFromSlot never fails: for any out-of-range slot
number (0, or beyond the current slots array length) it is a silent
no-op that returns the registry unchanged, and for in-range indices it
is total as well — no InvalidSlotIndex error outcome exists. -/
theorem removeFromSlot_out_of_range_noop (slotId : Nat) (st : HarpoonState)
    (h : ¬(0 < slotId ∧ slotId ≤ st.slots.length)) :
    removeFromSlot slotId st = st := by
  unfold removeFromSlot
  rw [if_neg h]

/-- C9: markToSlot fails (returns null) and leaves the stored registry
completely unchanged whenever the resolved tab does not exist, has no id
or no URL, or its URL begins with chrome:// or chrome-extension:// — no
slot is written, nothing is persisted. -/
theorem markToSlot_invalid_target_no_change (tab : Option Tab) (slotId : Nat)
    (st : HarpoonState)
    (h : tab = none ∨ ∃ t, tab = some t ∧
      (t.id = none ∨ t.url = none ∨
        ∃ url, t.url = some url ∧
          (strStartsWith url "chrome://" = true ∨
            strStartsWith url "chrome-extension://" = true))) :
    markToSlot tab slotId st = (none, st) := by
  rcases h with h | ⟨t, ht, hbad⟩
  · rw [h]
    rfl
  · subst ht
    rcases hbad with hid | hurl | ⟨url, hurl, hscheme⟩
    · cases hu : t.url <;> simp only [markToSlot, hid, hu]
    · cases hi : t.id <;> simp only [markToSlot, hi, hurl]
    · cases hi : t.id with
      | none => simp only [markToSlot, hi, hurl]
      | some tid =>
        have hcond : (strStartsWith url "chrome://" ||
            strStartsWith url "chrome-extension://") = true := by
          rcases hscheme with hs | hs <;> simp [hs]
        simp only [markToSlot, hi, hurl, hcond, if_true]

/-! ## Closed instance checks -/

theorem slotsInvariant_of_forall_lt (st : HarpoonState)
    (h : ∀ j, j < st.slots.length → ∀ s : HarpoonSlot,
      jsGet st.slots (j : Int) = some s → s.id = j + 1) :
    slotsInvariant st := by
  intro j s hs
  by_cases hj : j < st.slots.length
  · exact h j hj s hs
  · rw [jsGet_natCast, List.getElem?_eq_none (by omega)] at hs
    cases hs

theorem jump_resolution_witness :
    jumpToSlot [sampleTab] true sampleNewTab 1 sampleState =
      (true, sampleState, JumpEffect.activated (some 7) 1) :=
  (jumpToSlot_resolution_order [sampleTab] true sampleNewTab 1 sampleState).2.1
    sampleSlot 7 sampleTab (by decide) (by decide) (by decide)

theorem registry_id_invariant_witness : sampleSlot.id = 0 + 1 :=
  registry_id_invariant [RegOp.mark 1 (some sampleTab)] 0 sampleSlot (by decide)

theorem exact_sequence_witness :
    feed DEFAULT_KEYBINDS idleMatcher ["Space", "h", "a"] =
      ({ currentSequence := [], timeoutArmed := false, enabled := true },
        [(true, []), (true, []), (true, [KeybindAction.harpoonAdd])]) :=
  (exact_sequence_emits_once DEFAULT_KEYBINDS
    { sequence := ["Space", "h", "a"], description := "Add tab to Harpoon",
      action := KeybindAction.harpoonAdd }
    { sequence := ["Space", "h", "a"], description := "Add tab to Harpoon",
      action := KeybindAction.harpoonAdd }
    idleMatcher (by decide) (by decide) (by decide) (by decide) rfl rfl).1

theorem remove_out_of_range_witness :
    removeFromSlot 11 sampleState = sampleState :=
  removeFromSlot_out_of_range_noop 11 sampleState (by decide)

theorem sync_idempotent_witness :
    syncWithTabs [] (syncWithTabs [] sampleState) = syncWithTabs [] sampleState ∧
    (syncWithTabs [] sampleState).slots[0]? = some (some sampleSlot) :=
  ⟨(syncWithTabs_idempotent_and_keeps_stale [] sampleState).1,
    (syncWithTabs_idempotent_and_keeps_stale [] sampleState).2 0 sampleSlot
      (by decide) (fun tid _ => rfl) rfl⟩

theorem swap_involutive_witness :
    swapSlots 1 2 (swapSlots 1 2 sampleState) = sampleState :=
  swapSlots_involutive 1 2 sampleState
    (slotsInvariant_of_forall_lt sampleState (by decide))
    (by decide) (by decide) (by decide) (by decide)

theorem idle_nonleader_witness :
    handleKeyDown DEFAULT_KEYBINDS idleMatcher
      { code := "KeyA", key := "a", targetIsInput := false } =
      (false, idleMatcher, []) :=
  idle_nonleader_not_consumed DEFAULT_KEYBINDS idleMatcher
    { code := "KeyA", key := "a", targetIsInput := false } "a"
    rfl (by decide) (by decide)

theorem dead_end_witness :
    (handleKeyDown DEFAULT_KEYBINDS
        { currentSequence := ["Space"], timeoutArmed := true, enabled := true }
        { code := "KeyQ", key := "q", targetIsInput := false }).1 = false ∧
    (handleKeyDown DEFAULT_KEYBINDS
        { currentSequence := ["Space"], timeoutArmed := true, enabled := true }
        { code := "KeyQ", key := "q", targetIsInput := false }).2.1.currentSequence = [] ∧
    (handleKeyDown DEFAULT_KEYBINDS
        { currentSequence := ["Space"], timeoutArmed := true, enabled := true }
        { code := "KeyQ", key := "q", targetIsInput := false }).2.2 = [] :=
  dead_end_resets_and_falls_through DEFAULT_KEYBINDS
    { currentSequence := ["Space"], timeoutArmed := true, enabled := true }
    { code := "KeyQ", key := "q", targetIsInput := false } "q"
    rfl rfl (by decide) (by decide)

theorem mark_invalid_target_witness :
    markToSlot (some sampleIdlessTab) 3 sampleState = (none, sampleState) :=
  markToSlot_invalid_target_no_change (some sampleIdlessTab) 3 sampleState
    (Or.inr ⟨sampleIdlessTab, rfl, Or.inl rfl⟩)

theorem non_token_witness :
    handleKeyDown DEFAULT_KEYBINDS
      { currentSequence := ["Space"], timeoutArmed := true, enabled := true }
      { code := "ArrowLeft", key := "ArrowLeft", targetIsInput := false } =
      (false,
        { currentSequence := ["Space"], timeoutArmed := true, enabled := true }, []) :=
  (non_token_keys_inert DEFAULT_KEYBINDS
    { currentSequence := ["Space"], timeoutArmed := true, enabled := true }
    { code := "ArrowLeft", key := "ArrowLeft", targetIsInput := false }).2 (by decide)
